import Mathlib

/-!
Verification development for the sandboxed code-execution subsystem of the
OWC backend (`middleware/user/manager.py`, class `UserManager`).

Shallow embedding conventions:
* Filesystem paths are lists of path components (`FsPath`); `os.path.join`
  appends one component (`pathJoin`).  The process working directory
  (`os.getcwd()`) is one opaque component.
* Side effects on the filesystem and the container engine are recorded in an
  event trace (`Event`).  The constructors `removeFile` and `containerRemove`
  are part of the observation vocabulary (the `os` / docker APIs offer them);
  whether the embedded code ever emits them is exactly what some theorems
  settle.  `dispatched` and `unsupportedLanguageBranch` are pure
  instrumentation markers recording which branch of the dispatch chain in
  `execute_code` was taken; they correspond to no I/O.
* Exceptions are modelled with `Except String`: a raised Python exception is
  `Except.error msg` with `msg` the result of `str(e)`.
* The container engine and the error-injection points are an oracle `Env`:
  `mkdirExc` (an exception from `os.makedirs`), `writeExc` (an exception from
  `open(path, "w")`), `clientExc` (an exception from `docker.from_env()`,
  which in the source sits outside the `try` of `run_docker_container`), and
  `run`, the outcome of `client.containers.run` for a given image and
  command.
-/

/-- A filesystem path, as its list of components. -/
abbrev FsPath := List String

/-- `os.path.join(dir, name)` for a single relative component. -/
def pathJoin (d : FsPath) (c : String) : FsPath := d ++ [c]

/-- Observable effects of one call, in program order. -/
inductive Event
  | mkdir (path : FsPath)
  | writeFile (path : FsPath) (text : String)
  | removeFile (path : FsPath)
  | containerCreate (image : String) (command : String) (mount : FsPath)
  | containerRemove (image : String) (command : String)
  | dispatched (language : String)
  | unsupportedLanguageBranch
deriving DecidableEq

/-- What `client.containers.run(image, command, ...)` did, as seen from the
caller.  `containerError` models `docker.errors.ContainerError`: docker-py
raises it on a non-zero exit and stores only the stderr stream in the
exception (`container.logs(stdout=False, stderr=True)`); `stdoutText` records
the stdout the container produced before failing, which the exception does
not carry and the source never retrieves. -/
inductive DockerOutcome
  | success (stdout : String)
  | containerError (exitStatus : Int) (stdoutText : String) (stderr : Option String)
  | imageNotFound (msg : String)
  | apiError (msg : String)
  | raised (msg : String)

/-- Oracle for the process environment: working directory, injected
filesystem/engine faults, and the engine's behaviour per (image, command). -/
structure Env where
  cwd : String
  mkdirExc : Option String
  writeExc : FsPath → Option String
  clientExc : Option String
  run : String → String → DockerOutcome

deriving instance DecidableEq for Except

/-- ASCII whitespace, as stripped by Python's `str.strip()`. -/
def isPySpace (c : Char) : Bool :=
  c == ' ' || c == '\t' || c == '\n' || c == '\r' || c == '\x0b' || c == '\x0c'

/-- Python's `str.strip()` with no argument: remove leading and trailing
whitespace. -/
def pyStrip (s : String) : String :=
  { data := ((s.data.dropWhile isPySpace).reverse.dropWhile isPySpace).reverse }

/-- Python truthiness of an `str | None` value: `not error`. -/
def pyOptFalsy : Option String → Bool
  | none => true
  | some s => s == ""

/-- `error or None` (used on the last line of `run_docker_container`):
an empty error string collapses to `None`. -/
def strOrNone (s : String) : Option String :=
  if s == "" then none else some s

/-- `UserManager.USING_LANGUAGE` (manager.py line 39). -/
def USING_LANGUAGE : List String := ["python", "c", "cpp", "js", "cs", "ruby", "go"]

/-- The fields of `User` that the execution subsystem reads. -/
structure User where
  username : String
  uuid_file_store : String
deriving DecidableEq

/-- The request body, `CodeSchema` (schemas.py line 179). -/
structure CodeSchema where
  code : String
  language : String
deriving DecidableEq

/-- The `{'output': ..., 'error': ...}` dictionary returned to the caller. -/
structure ExecResult where
  output : String
  error : Option String
deriving DecidableEq

/-- `user_dir = f"{os.getcwd()}/storage/{user.username}_{user.uuid_file_store}/projects"`
(manager.py line 769). -/
def user_dir (cwd : String) (user : User) : FsPath :=
  [cwd, "storage", user.username ++ "_" ++ user.uuid_file_store, "projects"]

/-- `UserManager.run_docker_container` (manager.py lines 798-829).
`docker.from_env()` sits outside the `try`, so its failure propagates
(`Except.error`); every engine outcome inside the `try` is converted to a
returned pair.  On success the bytes are decoded and stripped; on
`ContainerError` the stripped stderr becomes the output and a formatted
message the error; the final `return output, error or None` is `strOrNone`. -/
def run_docker_container (env : Env) (image : String) (command : String) (ud : FsPath) :
    Except String (String × Option String) × List Event :=
  match env.clientExc with
  | some m => (Except.error m, [])
  | none =>
    match env.run image command with
    | DockerOutcome.success stdout =>
        (Except.ok (pyStrip stdout, none), [Event.containerCreate image command ud])
    | DockerOutcome.containerError exitStatus _ stderr =>
        let output := (match stderr with | some s => pyStrip s | none => "")
        let error := "Command '" ++ command ++ "' in image '" ++ image ++
          "' returned non-zero exit status " ++ toString exitStatus ++ ": " ++ output
        (Except.ok (output, strOrNone error), [Event.containerCreate image command ud])
    | DockerOutcome.imageNotFound m =>
        (Except.ok ("", strOrNone ("Image not found: " ++ m)), [])
    | DockerOutcome.apiError m =>
        (Except.ok ("", strOrNone ("Docker API error: " ++ m)), [])
    | DockerOutcome.raised m =>
        (Except.ok ("", strOrNone m), [])

/-- `UserManager.create_code_file` (manager.py lines 761-766): a context
manager that writes the file, yields to the body, and does not remove the
file afterwards (the `os.remove(path)` line is commented out, marked
"Optional").  An exception from the body propagates through the bare
`yield`. -/
def create_code_file {A : Type} (env : Env) (path : FsPath) (text : String)
    (body : Unit → Except String A × List Event) :
    Except String A × List Event :=
  match env.writeExc path with
  | some m => (Except.error m, [])
  | none =>
    let r := body ()
    (r.fst, Event.writeFile path text :: r.snd)

/-- `UserManager.execute_python_code` (manager.py lines 831-837): fixed file
name `code.py`, fixed container path. -/
def execute_python_code (env : Env) (code : String) (ud : FsPath) :
    Except String (String × Option String) × List Event :=
  let path := pathJoin ud "code.py"
  create_code_file env path code (fun _ =>
    run_docker_container env "python:3.9" ("python " ++ "/usr/src/app/code.py") ud)

/-- `UserManager.execute_c_code` (manager.py lines 839-856): uuid-named
`.c` file; the container path uses `os.path.basename` of the created file. -/
def execute_c_code (env : Env) (tok : String) (code : String) (ud : FsPath) :
    Except String (String × Option String) × List Event :=
  let c_file_path := pathJoin ud (tok ++ ".c")
  let container_path := "/usr/src/app/" ++ (tok ++ ".c")
  create_code_file env c_file_path code (fun _ =>
    run_docker_container env "gcc:latest"
      ("sh -c 'gcc " ++ container_path ++ " -o /tmp/code && /tmp/code'") ud)

/-- `UserManager.execute_cpp_code` (manager.py lines 858-875). -/
def execute_cpp_code (env : Env) (tok : String) (code : String) (ud : FsPath) :
    Except String (String × Option String) × List Event :=
  let cpp_file_path := pathJoin ud (tok ++ ".cpp")
  let container_path := "/usr/src/app/" ++ (tok ++ ".cpp")
  create_code_file env cpp_file_path code (fun _ =>
    run_docker_container env "gcc:latest"
      ("sh -c 'g++ " ++ container_path ++ " -o /tmp/code && /tmp/code'") ud)

/-- `UserManager.execute_js_code` (manager.py lines 877-891). -/
def execute_js_code (env : Env) (tok : String) (code : String) (ud : FsPath) :
    Except String (String × Option String) × List Event :=
  let js_file_path := pathJoin ud (tok ++ ".js")
  let container_path := "/usr/src/app/" ++ (tok ++ ".js")
  create_code_file env js_file_path code (fun _ =>
    run_docker_container env "node:latest" ("node " ++ container_path) ud)

/-- `UserManager.execute_cs_code` (manager.py lines 894-922): a `cs_project`
directory is created under the user directory and the uuid-named `.cs` file
inside it; the command operates on the directory.  The logger calls on the
result are pure logging and change nothing that is returned. -/
def execute_cs_code (env : Env) (tok : String) (code : String) (ud : FsPath) :
    Except String (String × Option String) × List Event :=
  let path := pathJoin ud "cs_project"
  let code_file_path := pathJoin path (tok ++ ".cs")
  let container_path := "/usr/src/app/cs_project"
  let r := create_code_file env code_file_path code (fun _ =>
    run_docker_container env "mcr.microsoft.com/dotnet/sdk:latest"
      ("sh -c 'dotnet new console -o " ++ container_path ++ " --force && dotnet build " ++
        container_path ++ " -v diag && dotnet run --project " ++ container_path ++ "'") ud)
  (r.fst, Event.mkdir path :: r.snd)

/-- `UserManager.execute_ruby_code` (manager.py lines 924-930). -/
def execute_ruby_code (env : Env) (tok : String) (code : String) (ud : FsPath) :
    Except String (String × Option String) × List Event :=
  let path := pathJoin ud (tok ++ ".rb")
  let container_path := "/usr/src/app/" ++ (tok ++ ".rb")
  create_code_file env path code (fun _ =>
    run_docker_container env "ruby:latest" ("ruby " ++ container_path) ud)

/-- `UserManager.execute_golang_code` (manager.py lines 932-948): the source
is written to a uuid-named `.go` file, but `container_path` is the fixed
string `"/usr/src/app/code.go"` and the command builds that fixed path.  The
`go.mod` block in the source is commented out. -/
def execute_golang_code (env : Env) (tok : String) (code : String) (ud : FsPath) :
    Except String (String × Option String) × List Event :=
  let path := pathJoin ud (tok ++ ".go")
  let container_path := "/usr/src/app/code.go"
  create_code_file env path code (fun _ =>
    run_docker_container env "golang:latest"
      ("sh -c 'cd /usr/src/app && go mod init usercode && go build " ++
        container_path ++ " && ./code'") ud)

/-- Prepend the instrumentation marker for the dispatch-chain branch taken. -/
def tagDispatch {A : Type} (language : String) (r : Except String A × List Event) :
    Except String A × List Event :=
  (r.fst, Event.dispatched language :: r.snd)

/-- `UserManager.execute_code` (manager.py lines 768-796): build `user_dir`,
`os.makedirs(user_dir, exist_ok=True)`, then the per-language dispatch chain.
The source's `if not params: return "", "Invalid parameters"` tests a
non-empty dict literal and is dead code, so it is omitted.  `tok` models the
fresh `uuid.uuid4()` string drawn by the chosen executor. -/
def execute_code (env : Env) (tok : String) (code : String) (language : String) (user : User) :
    Except String (String × Option String) × List Event :=
  let ud := user_dir env.cwd user
  match env.mkdirExc with
  | some m => (Except.error m, [])
  | none =>
    let r :=
      if language == "python" then tagDispatch "python" (execute_python_code env code ud)
      else if language == "c" then tagDispatch "c" (execute_c_code env tok code ud)
      else if language == "cpp" then tagDispatch "cpp" (execute_cpp_code env tok code ud)
      else if language == "js" then tagDispatch "js" (execute_js_code env tok code ud)
      else if language == "cs" then tagDispatch "cs" (execute_cs_code env tok code ud)
      else if language == "go" then tagDispatch "go" (execute_golang_code env tok code ud)
      else if language == "ruby" then tagDispatch "ruby" (execute_ruby_code env tok code ud)
      else (Except.ok ("", some "Unsupported language"), [Event.unsupportedLanguageBranch])
    (r.fst, Event.mkdir ud :: r.snd)

/-- `UserManager.execute_user_code` (manager.py lines 730-759): the
allow-list check comes first and returns the fixed dictionary; otherwise
`execute_code` runs under a `try` whose `except` arms both produce
`{'output': '', 'error': str(e)}`; on the normal path an empty output with a
falsy error is replaced by a synthesized diagnostic. -/
def execute_user_code (env : Env) (tok : String) (response : CodeSchema) (user : User) :
    ExecResult × List Event :=
  if response.language ∉ USING_LANGUAGE then
    ({ output := "", error := some "This language is not available now" }, [])
  else
    match execute_code env tok response.code response.language user with
    | (Except.ok (output, error), tr) =>
        let error := if output == "" && pyOptFalsy error then
            some "No output or error returned from execution"
          else error
        ({ output := output, error := error }, tr)
    | (Except.error m, tr) => ({ output := "", error := some m }, tr)

/-! ### Observation helpers over traces -/

/-- Paths of all files written in a trace. -/
def writtenFiles : List Event → List FsPath
  | [] => []
  | Event.writeFile p _ :: tr => p :: writtenFiles tr
  | _ :: tr => writtenFiles tr

/-- The languages of the dispatch markers in a trace. -/
def dispatches : List Event → List String
  | [] => []
  | Event.dispatched s :: tr => s :: dispatches tr
  | _ :: tr => dispatches tr

/-- Is this event a file removal? -/
def isRemoveFile : Event → Bool
  | Event.removeFile _ => true
  | _ => false

/-- Is this event a container creation? -/
def isContainerCreate : Event → Bool
  | Event.containerCreate _ _ _ => true
  | _ => false

/-- Is this event a container removal? -/
def isContainerRemove : Event → Bool
  | Event.containerRemove _ _ => true
  | _ => false

/-- The commands of the containers created in a trace. -/
def containerCommands : List Event → List String
  | [] => []
  | Event.containerCreate _ c _ :: tr => c :: containerCommands tr
  | _ :: tr => containerCommands tr

/-- Does the character sequence `n` occur contiguously in `h`? -/
def containsSeq (n : List Char) : List Char → Bool
  | [] => n.isEmpty
  | c :: t => n.isPrefixOf (c :: t) || containsSeq n t

/-! ### Concrete instances used in witnesses and counterexamples -/

/-- A healthy environment whose engine prints `hi` for every run. -/
def envOK : Env :=
  { cwd := "/app", mkdirExc := none, writeExc := fun _ => none,
    clientExc := none, run := fun _ _ => DockerOutcome.success "hi" }

/-- An environment where `docker.from_env()` raises ("engine down"). -/
def envDown : Env :=
  { envOK with clientExc := some "engine down" }

/-- An environment where `os.makedirs` raises an exception whose `str` is
the empty string (e.g. `OSError()`). -/
def envMkdirSilent : Env :=
  { envOK with mkdirExc := some "" }

/-- An environment whose engine raises a non-`ContainerError` exception with
an empty message. -/
def envRaisesEmpty : Env :=
  { envOK with run := fun _ _ => DockerOutcome.raised "" }

/-- An environment whose engine exits non-zero with stderr `"boom\n"` after
having produced some stdout. -/
def envBoom : Env :=
  { envOK with run := fun _ _ =>
      DockerOutcome.containerError 1 "partial stdout" (some "boom\n") }

/-- A fixed requester. -/
def alice : User := { username := "alice", uuid_file_store := "u1" }

/-- A minimal go hello-world program. -/
def goHello : String :=
  "package main\n\nimport \"fmt\"\n\nfunc main() \x7b fmt.Println(\"hi\") \x7d"

/-! ### Helper lemmas -/

theorem string_append_right_cancel {a b : String} (s : String) (h : a ++ s = b ++ s) :
    a = b := by
  have hd := congrArg String.data h
  rw [String.data_append, String.data_append] at hd
  exact String.ext (List.append_cancel_right hd)

theorem run_docker_container_eq_down (env : Env) (i c : String) (ud : FsPath) (m : String)
    (h : env.clientExc = some m) :
    run_docker_container env i c ud = (Except.error m, []) := by
  unfold run_docker_container; rw [h]

theorem run_events (env : Env) (i c : String) (ud : FsPath) :
    (run_docker_container env i c ud).snd = [] ∨
    (run_docker_container env i c ud).snd = [Event.containerCreate i c ud] := by
  unfold run_docker_container
  rcases env.clientExc with _ | m
  · cases env.run i c <;> simp
  · simp

theorem create_code_file_eq_write {A : Type} (env : Env) (p : FsPath) (t : String)
    (body : Unit → Except String A × List Event) (h : env.writeExc p = none) :
    create_code_file env p t body = ((body ()).fst, Event.writeFile p t :: (body ()).snd) := by
  unfold create_code_file; rw [h]

theorem create_code_file_eq_fail {A : Type} (env : Env) (p : FsPath) (t : String)
    (body : Unit → Except String A × List Event) (m : String) (h : env.writeExc p = some m) :
    create_code_file env p t body = (Except.error m, []) := by
  unfold create_code_file; rw [h]

theorem execute_code_mkdir_fail (env : Env) (tok code lang : String) (user : User) (m : String)
    (h : env.mkdirExc = some m) :
    execute_code env tok code lang user = (Except.error m, []) := by
  unfold execute_code; rw [h]

theorem execute_code_python_eq (env : Env) (tok code : String) (user : User)
    (h : env.mkdirExc = none) :
    execute_code env tok code "python" user =
      ((execute_python_code env code (user_dir env.cwd user)).fst,
        Event.mkdir (user_dir env.cwd user) :: Event.dispatched "python" ::
          (execute_python_code env code (user_dir env.cwd user)).snd) := by
  unfold execute_code tagDispatch; rw [h]; rfl

theorem execute_code_c_eq (env : Env) (tok code : String) (user : User)
    (h : env.mkdirExc = none) :
    execute_code env tok code "c" user =
      ((execute_c_code env tok code (user_dir env.cwd user)).fst,
        Event.mkdir (user_dir env.cwd user) :: Event.dispatched "c" ::
          (execute_c_code env tok code (user_dir env.cwd user)).snd) := by
  unfold execute_code tagDispatch; rw [h]; rfl

theorem execute_code_cpp_eq (env : Env) (tok code : String) (user : User)
    (h : env.mkdirExc = none) :
    execute_code env tok code "cpp" user =
      ((execute_cpp_code env tok code (user_dir env.cwd user)).fst,
        Event.mkdir (user_dir env.cwd user) :: Event.dispatched "cpp" ::
          (execute_cpp_code env tok code (user_dir env.cwd user)).snd) := by
  unfold execute_code tagDispatch; rw [h]; rfl

theorem execute_code_js_eq (env : Env) (tok code : String) (user : User)
    (h : env.mkdirExc = none) :
    execute_code env tok code "js" user =
      ((execute_js_code env tok code (user_dir env.cwd user)).fst,
        Event.mkdir (user_dir env.cwd user) :: Event.dispatched "js" ::
          (execute_js_code env tok code (user_dir env.cwd user)).snd) := by
  unfold execute_code tagDispatch; rw [h]; rfl

theorem execute_code_cs_eq (env : Env) (tok code : String) (user : User)
    (h : env.mkdirExc = none) :
    execute_code env tok code "cs" user =
      ((execute_cs_code env tok code (user_dir env.cwd user)).fst,
        Event.mkdir (user_dir env.cwd user) :: Event.dispatched "cs" ::
          (execute_cs_code env tok code (user_dir env.cwd user)).snd) := by
  unfold execute_code tagDispatch; rw [h]; rfl

theorem execute_code_go_eq (env : Env) (tok code : String) (user : User)
    (h : env.mkdirExc = none) :
    execute_code env tok code "go" user =
      ((execute_golang_code env tok code (user_dir env.cwd user)).fst,
        Event.mkdir (user_dir env.cwd user) :: Event.dispatched "go" ::
          (execute_golang_code env tok code (user_dir env.cwd user)).snd) := by
  unfold execute_code tagDispatch; rw [h]; rfl

theorem execute_code_ruby_eq (env : Env) (tok code : String) (user : User)
    (h : env.mkdirExc = none) :
    execute_code env tok code "ruby" user =
      ((execute_ruby_code env tok code (user_dir env.cwd user)).fst,
        Event.mkdir (user_dir env.cwd user) :: Event.dispatched "ruby" ::
          (execute_ruby_code env tok code (user_dir env.cwd user)).snd) := by
  unfold execute_code tagDispatch; rw [h]; rfl

theorem execute_code_other_eq (env : Env) (tok code lang : String) (user : User)
    (h : env.mkdirExc = none) (h1 : lang ≠ "python") (h2 : lang ≠ "c") (h3 : lang ≠ "cpp")
    (h4 : lang ≠ "js") (h5 : lang ≠ "cs") (h6 : lang ≠ "go") (h7 : lang ≠ "ruby") :
    execute_code env tok code lang user =
      (Except.ok ("", some "Unsupported language"),
       [Event.mkdir (user_dir env.cwd user), Event.unsupportedLanguageBranch]) := by
  unfold execute_code
  rw [h]
  simp only [beq_eq_false_iff_ne.mpr h1, beq_eq_false_iff_ne.mpr h2, beq_eq_false_iff_ne.mpr h3,
    beq_eq_false_iff_ne.mpr h4, beq_eq_false_iff_ne.mpr h5, beq_eq_false_iff_ne.mpr h6,
    beq_eq_false_iff_ne.mpr h7, Bool.false_eq_true, if_false]

theorem forall_events_simple (P : Event → Prop) (env : Env) (p : FsPath) (t i c : String)
    (ud : FsPath) (hw : P (Event.writeFile p t)) (hcc : P (Event.containerCreate i c ud)) :
    ∀ e ∈ (create_code_file env p t (fun _ => run_docker_container env i c ud)).snd, P e := by
  intro e he
  rcases hwe : env.writeExc p with _ | m
  · rw [create_code_file_eq_write _ _ _ _ hwe] at he
    rcases List.mem_cons.mp he with rfl | h
    · exact hw
    · rcases run_events env i c ud with hr | hr <;> rw [hr] at h
      · simp at h
      · rw [List.mem_singleton] at h
        subst h
        exact hcc
  · rw [create_code_file_eq_fail _ _ _ _ _ hwe] at he
    simp at he

theorem forall_events_exec_python (P : Event → Prop) (env : Env) (code : String) (ud : FsPath)
    (hw : ∀ p t, P (Event.writeFile p t)) (hcc : ∀ i c m, P (Event.containerCreate i c m)) :
    ∀ e ∈ (execute_python_code env code ud).snd, P e := by
  unfold execute_python_code
  exact forall_events_simple P env _ _ _ _ _ (hw _ _) (hcc _ _ _)

theorem forall_events_exec_c (P : Event → Prop) (env : Env) (tok code : String) (ud : FsPath)
    (hw : ∀ p t, P (Event.writeFile p t)) (hcc : ∀ i c m, P (Event.containerCreate i c m)) :
    ∀ e ∈ (execute_c_code env tok code ud).snd, P e := by
  unfold execute_c_code
  exact forall_events_simple P env _ _ _ _ _ (hw _ _) (hcc _ _ _)

theorem forall_events_exec_cpp (P : Event → Prop) (env : Env) (tok code : String) (ud : FsPath)
    (hw : ∀ p t, P (Event.writeFile p t)) (hcc : ∀ i c m, P (Event.containerCreate i c m)) :
    ∀ e ∈ (execute_cpp_code env tok code ud).snd, P e := by
  unfold execute_cpp_code
  exact forall_events_simple P env _ _ _ _ _ (hw _ _) (hcc _ _ _)

theorem forall_events_exec_js (P : Event → Prop) (env : Env) (tok code : String) (ud : FsPath)
    (hw : ∀ p t, P (Event.writeFile p t)) (hcc : ∀ i c m, P (Event.containerCreate i c m)) :
    ∀ e ∈ (execute_js_code env tok code ud).snd, P e := by
  unfold execute_js_code
  exact forall_events_simple P env _ _ _ _ _ (hw _ _) (hcc _ _ _)

theorem forall_events_exec_ruby (P : Event → Prop) (env : Env) (tok code : String) (ud : FsPath)
    (hw : ∀ p t, P (Event.writeFile p t)) (hcc : ∀ i c m, P (Event.containerCreate i c m)) :
    ∀ e ∈ (execute_ruby_code env tok code ud).snd, P e := by
  unfold execute_ruby_code
  exact forall_events_simple P env _ _ _ _ _ (hw _ _) (hcc _ _ _)

theorem forall_events_exec_go (P : Event → Prop) (env : Env) (tok code : String) (ud : FsPath)
    (hw : ∀ p t, P (Event.writeFile p t)) (hcc : ∀ i c m, P (Event.containerCreate i c m)) :
    ∀ e ∈ (execute_golang_code env tok code ud).snd, P e := by
  unfold execute_golang_code
  exact forall_events_simple P env _ _ _ _ _ (hw _ _) (hcc _ _ _)

theorem forall_events_exec_cs (P : Event → Prop) (env : Env) (tok code : String) (ud : FsPath)
    (hmk : ∀ p, P (Event.mkdir p)) (hw : ∀ p t, P (Event.writeFile p t))
    (hcc : ∀ i c m, P (Event.containerCreate i c m)) :
    ∀ e ∈ (execute_cs_code env tok code ud).snd, P e := by
  unfold execute_cs_code
  intro e he
  dsimp only at he
  rcases List.mem_cons.mp he with rfl | he
  · exact hmk _
  · exact forall_events_simple P env _ _ _ _ _ (hw _ _) (hcc _ _ _) e he

theorem forall_events_execute_code (P : Event → Prop)
    (hmk : ∀ p, P (Event.mkdir p)) (hw : ∀ p t, P (Event.writeFile p t))
    (hcc : ∀ i c m, P (Event.containerCreate i c m)) (hd : ∀ l, P (Event.dispatched l))
    (hu : P Event.unsupportedLanguageBranch)
    (env : Env) (tok code lang : String) (user : User) :
    ∀ e ∈ (execute_code env tok code lang user).snd, P e := by
  intro e he
  rcases hm : env.mkdirExc with _ | m
  · by_cases hL1 : lang = "python"
    · subst hL1
      rw [execute_code_python_eq env tok code user hm] at he
      rcases List.mem_cons.mp he with rfl | he
      · exact hmk _
      rcases List.mem_cons.mp he with rfl | he
      · exact hd _
      exact forall_events_exec_python P env code _ hw hcc e he
    by_cases hL2 : lang = "c"
    · subst hL2
      rw [execute_code_c_eq env tok code user hm] at he
      rcases List.mem_cons.mp he with rfl | he
      · exact hmk _
      rcases List.mem_cons.mp he with rfl | he
      · exact hd _
      exact forall_events_exec_c P env tok code _ hw hcc e he
    by_cases hL3 : lang = "cpp"
    · subst hL3
      rw [execute_code_cpp_eq env tok code user hm] at he
      rcases List.mem_cons.mp he with rfl | he
      · exact hmk _
      rcases List.mem_cons.mp he with rfl | he
      · exact hd _
      exact forall_events_exec_cpp P env tok code _ hw hcc e he
    by_cases hL4 : lang = "js"
    · subst hL4
      rw [execute_code_js_eq env tok code user hm] at he
      rcases List.mem_cons.mp he with rfl | he
      · exact hmk _
      rcases List.mem_cons.mp he with rfl | he
      · exact hd _
      exact forall_events_exec_js P env tok code _ hw hcc e he
    by_cases hL5 : lang = "cs"
    · subst hL5
      rw [execute_code_cs_eq env tok code user hm] at he
      rcases List.mem_cons.mp he with rfl | he
      · exact hmk _
      rcases List.mem_cons.mp he with rfl | he
      · exact hd _
      exact forall_events_exec_cs P env tok code _ hmk hw hcc e he
    by_cases hL6 : lang = "go"
    · subst hL6
      rw [execute_code_go_eq env tok code user hm] at he
      rcases List.mem_cons.mp he with rfl | he
      · exact hmk _
      rcases List.mem_cons.mp he with rfl | he
      · exact hd _
      exact forall_events_exec_go P env tok code _ hw hcc e he
    by_cases hL7 : lang = "ruby"
    · subst hL7
      rw [execute_code_ruby_eq env tok code user hm] at he
      rcases List.mem_cons.mp he with rfl | he
      · exact hmk _
      rcases List.mem_cons.mp he with rfl | he
      · exact hd _
      exact forall_events_exec_ruby P env tok code _ hw hcc e he
    rw [execute_code_other_eq env tok code lang user hm hL1 hL2 hL3 hL4 hL5 hL6 hL7] at he
    rcases List.mem_cons.mp he with rfl | he
    · exact hmk _
    rcases List.mem_cons.mp he with rfl | he
    · exact hu
    simp at he
  · rw [execute_code_mkdir_fail env tok code lang user m hm] at he
    simp at he

theorem writtenFiles_simple (env : Env) (p : FsPath) (t i c : String) (ud : FsPath) :
    writtenFiles (create_code_file env p t (fun _ => run_docker_container env i c ud)).snd = [] ∨
    writtenFiles (create_code_file env p t (fun _ => run_docker_container env i c ud)).snd = [p] := by
  rcases hwe : env.writeExc p with _ | m
  · rw [create_code_file_eq_write _ _ _ _ hwe]
    right
    dsimp only
    rcases run_events env i c ud with h | h <;> rw [h] <;> simp [writtenFiles]
  · rw [create_code_file_eq_fail _ _ _ _ _ hwe]
    left
    rfl

theorem writtenFiles_exec_python (env : Env) (code : String) (ud : FsPath) :
    writtenFiles (execute_python_code env code ud).snd =
      match env.writeExc (pathJoin ud "code.py") with
      | some _ => []
      | none => [pathJoin ud "code.py"] := by
  unfold execute_python_code
  rcases hwe : env.writeExc (pathJoin ud "code.py") with _ | m
  · rw [create_code_file_eq_write _ _ _ _ hwe]
    dsimp only
    rcases run_events env "python:3.9" ("python " ++ "/usr/src/app/code.py") ud with h | h <;>
      rw [h] <;> simp [writtenFiles]
  · rw [create_code_file_eq_fail _ _ _ _ _ hwe]
    rfl

theorem writtenFiles_exec_c (env : Env) (tok code : String) (ud : FsPath) :
    writtenFiles (execute_c_code env tok code ud).snd = [] ∨
    writtenFiles (execute_c_code env tok code ud).snd = [pathJoin ud (tok ++ ".c")] := by
  unfold execute_c_code
  exact writtenFiles_simple env _ code _ _ ud

theorem writtenFiles_exec_cpp (env : Env) (tok code : String) (ud : FsPath) :
    writtenFiles (execute_cpp_code env tok code ud).snd = [] ∨
    writtenFiles (execute_cpp_code env tok code ud).snd = [pathJoin ud (tok ++ ".cpp")] := by
  unfold execute_cpp_code
  exact writtenFiles_simple env _ code _ _ ud

theorem writtenFiles_exec_js (env : Env) (tok code : String) (ud : FsPath) :
    writtenFiles (execute_js_code env tok code ud).snd = [] ∨
    writtenFiles (execute_js_code env tok code ud).snd = [pathJoin ud (tok ++ ".js")] := by
  unfold execute_js_code
  exact writtenFiles_simple env _ code _ _ ud

theorem writtenFiles_exec_ruby (env : Env) (tok code : String) (ud : FsPath) :
    writtenFiles (execute_ruby_code env tok code ud).snd = [] ∨
    writtenFiles (execute_ruby_code env tok code ud).snd = [pathJoin ud (tok ++ ".rb")] := by
  unfold execute_ruby_code
  exact writtenFiles_simple env _ code _ _ ud

theorem writtenFiles_exec_go (env : Env) (tok code : String) (ud : FsPath) :
    writtenFiles (execute_golang_code env tok code ud).snd = [] ∨
    writtenFiles (execute_golang_code env tok code ud).snd = [pathJoin ud (tok ++ ".go")] := by
  unfold execute_golang_code
  exact writtenFiles_simple env _ code _ _ ud

theorem writtenFiles_exec_cs (env : Env) (tok code : String) (ud : FsPath) :
    writtenFiles (execute_cs_code env tok code ud).snd = [] ∨
    writtenFiles (execute_cs_code env tok code ud).snd =
      [pathJoin (pathJoin ud "cs_project") (tok ++ ".cs")] := by
  unfold execute_cs_code
  dsimp only
  simp only [writtenFiles]
  exact writtenFiles_simple env _ code _ _ ud

theorem dispatches_simple (env : Env) (p : FsPath) (t i c : String) (ud : FsPath) :
    dispatches (create_code_file env p t (fun _ => run_docker_container env i c ud)).snd = [] := by
  rcases hwe : env.writeExc p with _ | m
  · rw [create_code_file_eq_write _ _ _ _ hwe]
    dsimp only
    rcases run_events env i c ud with h | h <;> rw [h] <;> simp [dispatches]
  · rw [create_code_file_eq_fail _ _ _ _ _ hwe]
    rfl

theorem dispatches_exec_python (env : Env) (code : String) (ud : FsPath) :
    dispatches (execute_python_code env code ud).snd = [] := by
  unfold execute_python_code
  exact dispatches_simple env _ code _ _ ud

theorem dispatches_exec_c (env : Env) (tok code : String) (ud : FsPath) :
    dispatches (execute_c_code env tok code ud).snd = [] := by
  unfold execute_c_code
  exact dispatches_simple env _ code _ _ ud

theorem dispatches_exec_cpp (env : Env) (tok code : String) (ud : FsPath) :
    dispatches (execute_cpp_code env tok code ud).snd = [] := by
  unfold execute_cpp_code
  exact dispatches_simple env _ code _ _ ud

theorem dispatches_exec_js (env : Env) (tok code : String) (ud : FsPath) :
    dispatches (execute_js_code env tok code ud).snd = [] := by
  unfold execute_js_code
  exact dispatches_simple env _ code _ _ ud

theorem dispatches_exec_ruby (env : Env) (tok code : String) (ud : FsPath) :
    dispatches (execute_ruby_code env tok code ud).snd = [] := by
  unfold execute_ruby_code
  exact dispatches_simple env _ code _ _ ud

theorem dispatches_exec_go (env : Env) (tok code : String) (ud : FsPath) :
    dispatches (execute_golang_code env tok code ud).snd = [] := by
  unfold execute_golang_code
  exact dispatches_simple env _ code _ _ ud

theorem dispatches_exec_cs (env : Env) (tok code : String) (ud : FsPath) :
    dispatches (execute_cs_code env tok code ud).snd = [] := by
  unfold execute_cs_code
  dsimp only
  simp only [dispatches]
  exact dispatches_simple env _ code _ _ ud

theorem pathJoin_token_ne {ud : FsPath} {t1 t2 : String} (s : String) (h : t1 ≠ t2) :
    pathJoin ud (t1 ++ s) ≠ pathJoin ud (t2 ++ s) := by
  intro he
  apply h
  unfold pathJoin at he
  have h2 := List.append_cancel_left he
  simp only [List.cons.injEq, and_true] at h2
  exact string_append_right_cancel s h2

theorem disjoint_of_cases {α : Type} {l1 l2 : List α} {a b : α}
    (h1 : l1 = [] ∨ l1 = [a]) (h2 : l2 = [] ∨ l2 = [b]) (hne : a ≠ b) :
    ∀ p, p ∈ l1 → p ∉ l2 := by
  intro p hp1 hp2
  rcases h1 with rfl | rfl
  · simp at hp1
  · rcases h2 with rfl | rfl
    · simp at hp2
    · rw [List.mem_singleton] at hp1 hp2
      subst hp1
      exact hne hp2

theorem writtenFiles_cons_mkdir (p : FsPath) (tr : List Event) :
    writtenFiles (Event.mkdir p :: tr) = writtenFiles tr := rfl

theorem writtenFiles_cons_dispatched (l : String) (tr : List Event) :
    writtenFiles (Event.dispatched l :: tr) = writtenFiles tr := rfl

theorem dispatches_cons_mkdir (p : FsPath) (tr : List Event) :
    dispatches (Event.mkdir p :: tr) = dispatches tr := rfl

theorem dispatches_cons_dispatched (l : String) (tr : List Event) :
    dispatches (Event.dispatched l :: tr) = l :: dispatches tr := rfl

/-! ### Claim theorems -/

/-- C2: for every request whose language is not in the allow-list,
`execute_user_code` returns `{'output': "", 'error': "This language is not
available now"}` immediately, with an empty effect trace: no directory or
file creation and no container work happen before returning. -/
theorem execute_user_code_rejects_unlisted_language (env : Env) (tok : String)
    (response : CodeSchema) (user : User) (h : response.language ∉ USING_LANGUAGE) :
    execute_user_code env tok response user =
      ({ output := "", error := some "This language is not available now" }, []) := by
  unfold execute_user_code
  rw [if_pos h]

/-- Witness for C2 at the concrete language `"haskell"`. -/
theorem execute_user_code_rejects_unlisted_language_witness :
    ("haskell" ∉ USING_LANGUAGE) ∧
    execute_user_code envOK "t1" { code := "print(1)", language := "haskell" } alice =
      ({ output := "", error := some "This language is not available now" }, []) :=
  ⟨by decide, execute_user_code_rejects_unlisted_language envOK "t1"
      { code := "print(1)", language := "haskell" } alice (by decide)⟩

/-- C3: every exception raised inside `execute_code` (staging or container
work) is caught by `execute_user_code` and converted into the structured
dictionary `{'output': '', 'error': str(e)}`; nothing propagates to the
caller. -/
theorem execute_user_code_catches_exceptions (env : Env) (tok : String)
    (response : CodeSchema) (user : User) (m : String) (tr : List Event)
    (hmem : response.language ∈ USING_LANGUAGE)
    (h : execute_code env tok response.code response.language user = (Except.error m, tr)) :
    execute_user_code env tok response user = ({ output := "", error := some m }, tr) := by
  unfold execute_user_code
  rw [if_neg (not_not_intro hmem), h]

/-- Witness for C3: with the engine down (`docker.from_env()` raising
"engine down"), a python request returns the structured error result. -/
theorem execute_user_code_catches_exceptions_witness :
    (("python" : String) ∈ USING_LANGUAGE) ∧
    execute_code envDown "t1" "x" "python" alice =
      (Except.error "engine down",
       [Event.mkdir ["/app", "storage", "alice_u1", "projects"],
        Event.dispatched "python",
        Event.writeFile ["/app", "storage", "alice_u1", "projects", "code.py"] "x"]) ∧
    execute_user_code envDown "t1" { code := "x", language := "python" } alice =
      ({ output := "", error := some "engine down" },
       [Event.mkdir ["/app", "storage", "alice_u1", "projects"],
        Event.dispatched "python",
        Event.writeFile ["/app", "storage", "alice_u1", "projects", "code.py"] "x"]) :=
  ⟨by decide, by decide,
    execute_user_code_catches_exceptions envDown "t1" { code := "x", language := "python" }
      alice "engine down"
      [Event.mkdir ["/app", "storage", "alice_u1", "projects"],
       Event.dispatched "python",
       Event.writeFile ["/app", "storage", "alice_u1", "projects", "code.py"] "x"]
      (by decide) (by decide)⟩

/-- C7 counterexample: when `execute_code` raises an exception whose `str()`
is empty (here `os.makedirs` raising an error with empty message),
`execute_user_code` returns `{'output': '', 'error': ''}` — a result in
which the output and the error are both empty — because the synthesized
diagnostic is only applied on the non-exception path.  This refutes the
claim's "it never returns a result in which output and error are both
empty". -/
theorem both_fields_empty_on_silent_exception :
    execute_user_code envMkdirSilent "t1" { code := "x", language := "python" } alice =
      ({ output := "", error := some "" }, []) ∧
    pyOptFalsy (some "") = true := by decide

/-- C7 (amended): when `execute_code` completes normally with an empty
output and a falsy error (`None` or `""`), `execute_user_code` replaces the
error with the diagnostic "No output or error returned from execution"; on
the exception path, however, the error field is `str(e)` and may itself be
empty, so a result with both fields empty remains possible there. -/
theorem empty_run_synthesizes_diagnostic (env : Env) (tok : String) (response : CodeSchema)
    (user : User) (err : Option String) (tr : List Event)
    (hmem : response.language ∈ USING_LANGUAGE)
    (h : execute_code env tok response.code response.language user = (Except.ok ("", err), tr))
    (hf : pyOptFalsy err = true) :
    execute_user_code env tok response user =
      ({ output := "", error := some "No output or error returned from execution" }, tr) := by
  unfold execute_user_code
  rw [if_neg (not_not_intro hmem), h]
  simp [hf]

/-- Witness for the amended C7: an engine whose internal exception message is
empty produces an `("", None)` pair, and the diagnostic replaces it. -/
theorem empty_run_synthesizes_diagnostic_witness :
    (("python" : String) ∈ USING_LANGUAGE) ∧
    execute_code envRaisesEmpty "t1" "x" "python" alice =
      (Except.ok ("", none),
       [Event.mkdir ["/app", "storage", "alice_u1", "projects"],
        Event.dispatched "python",
        Event.writeFile ["/app", "storage", "alice_u1", "projects", "code.py"] "x"]) ∧
    pyOptFalsy none = true ∧
    execute_user_code envRaisesEmpty "t1" { code := "x", language := "python" } alice =
      ({ output := "", error := some "No output or error returned from execution" },
       [Event.mkdir ["/app", "storage", "alice_u1", "projects"],
        Event.dispatched "python",
        Event.writeFile ["/app", "storage", "alice_u1", "projects", "code.py"] "x"]) :=
  ⟨by decide, by decide, by decide,
    empty_run_synthesizes_diagnostic envRaisesEmpty "t1" { code := "x", language := "python" }
      alice none
      [Event.mkdir ["/app", "storage", "alice_u1", "projects"],
       Event.dispatched "python",
       Event.writeFile ["/app", "storage", "alice_u1", "projects", "code.py"] "x"]
      (by decide) (by decide) (by decide)⟩

theorem execute_user_code_trace (env : Env) (tok : String) (response : CodeSchema)
    (user : User) (hmem : response.language ∈ USING_LANGUAGE) :
    (execute_user_code env tok response user).snd =
      (execute_code env tok response.code response.language user).snd := by
  unfold execute_user_code
  rw [if_neg (not_not_intro hmem)]
  rcases hx : execute_code env tok response.code response.language user with ⟨r, tr⟩
  cases r with
  | ok v =>
    cases v with
    | mk output error => rfl
  | error m => rfl

theorem append_ne_empty_left (a b : String) (ha : a ≠ "") : a ++ b ≠ "" := by
  intro he
  have hd := congrArg String.data he
  rw [String.data_append] at hd
  exact ha (String.ext (List.append_eq_nil.mp hd).1)

theorem append_ne_empty_right (a b : String) (hb : b ≠ "") : a ++ b ≠ "" := by
  intro he
  have hd := congrArg String.data he
  rw [String.data_append] at hd
  exact hb (String.ext (List.append_eq_nil.mp hd).2)

/-- C1 evaluation at the failing input (language `"go"`, a hello-world
program): the source is staged at the uuid-named file `t1.go`, but the
container command compiles the fixed path `/usr/src/app/code.go`.  The
command issued does not reference the container path of the file that was
actually written, so the go pipeline cannot run the submitted program and
the all-languages success property fails at `"go"`. -/
theorem golang_command_ignores_staged_file :
    writtenFiles (execute_code envOK "t1" goHello "go" alice).snd =
      [["/app", "storage", "alice_u1", "projects", "t1.go"]] ∧
    containerCommands (execute_code envOK "t1" goHello "go" alice).snd =
      ["sh -c 'cd /usr/src/app && go mod init usercode && go build /usr/src/app/code.go && ./code'"] ∧
    containsSeq "/usr/src/app/code.go".data
      "sh -c 'cd /usr/src/app && go mod init usercode && go build /usr/src/app/code.go && ./code'".data
      = true ∧
    containsSeq "/usr/src/app/t1.go".data
      "sh -c 'cd /usr/src/app && go mod init usercode && go build /usr/src/app/code.go && ./code'".data
      = false := by decide

/-- C4 evaluation: `run_docker_container` never removes a container on any
path — no trace of `execute_user_code` contains a container-removal event —
while a successful run does create one (docker-py `containers.run` is called
with `remove` unset, so the exited container stays in the engine listing). -/
theorem container_left_in_engine_after_run :
    (∀ env tok response user,
      (execute_user_code env tok response user).snd.any isContainerRemove = false) ∧
    (execute_user_code envOK "t1" { code := "print(1)", language := "python" } alice).snd.any
      isContainerCreate = true := by
  constructor
  · intro env tok response user
    by_cases hmem : response.language ∈ USING_LANGUAGE
    · rw [execute_user_code_trace env tok response user hmem]
      simp only [List.any_eq_false]
      intro e he
      have hP := forall_events_execute_code (fun e => isContainerRemove e = false)
        (fun p => rfl) (fun p t => rfl) (fun i c m => rfl) (fun l => rfl) rfl
        env tok response.code response.language user e he
      rw [hP]
      simp
    · unfold execute_user_code
      rw [if_pos hmem]
      rfl
  · decide

/-- C5 counterexample: on a successful python execution the staged file
`code.py` is written and the trace contains no file-removal event, so the
staged source is not released on the success exit path (the `os.remove` in
`create_code_file` is commented out), contradicting "released on every exit
path". -/
theorem staged_file_persists_after_success :
    writtenFiles
      (execute_user_code envOK "t1" { code := "print(1)", language := "python" } alice).snd =
      [["/app", "storage", "alice_u1", "projects", "code.py"]] ∧
    (execute_user_code envOK "t1" { code := "print(1)", language := "python" } alice).snd.any
      isRemoveFile = false := by decide

/-- C5 (amended): no exit path of `execute_user_code` removes a staged file:
for every environment, request and requester — success, compile failure,
runtime crash or adapter exception — the effect trace contains no
file-removal event, so staging state persists beyond the call that created
it. -/
theorem execute_user_code_never_removes_files (env : Env) (tok : String)
    (response : CodeSchema) (user : User) :
    (execute_user_code env tok response user).snd.any isRemoveFile = false := by
  by_cases hmem : response.language ∈ USING_LANGUAGE
  · rw [execute_user_code_trace env tok response user hmem]
    simp only [List.any_eq_false]
    intro e he
    have hP := forall_events_execute_code (fun e => isRemoveFile e = false)
      (fun p => rfl) (fun p t => rfl) (fun i c m => rfl) (fun l => rfl) rfl
      env tok response.code response.language user e he
    rw [hP]
    simp
  · unfold execute_user_code
    rw [if_pos hmem]
    rfl

/-- C6 counterexample: for a container run exiting non-zero with stderr
`"boom\n"` after printing `"partial stdout"`, the error string ends with the
stripped stderr `"boom"` and does not contain the original bytes `"boom\n"`
(stderr is not appended unmodified), and the output field holds the stripped
stderr — the pre-failure stdout is dropped, not preserved. -/
theorem container_error_strips_stderr_and_drops_stdout :
    (run_docker_container envBoom "python:3.9" "python /usr/src/app/code.py"
        ["/app", "storage", "alice_u1", "projects"]).fst =
      Except.ok ("boom",
        some "Command 'python /usr/src/app/code.py' in image 'python:3.9' returned non-zero exit status 1: boom") ∧
    containsSeq "boom\n".data
      "Command 'python /usr/src/app/code.py' in image 'python:3.9' returned non-zero exit status 1: boom".data
      = false ∧
    containsSeq "partial stdout".data "boom".data = false := by decide

/-- C6 (amended): on a non-zero exit, `run_docker_container` returns an
error string containing the failing command, the image and the exit status,
with the stderr appended after stripping surrounding whitespace, and the
output field holds that same stripped stderr (the engine's pre-failure
stdout is not retrieved). -/
theorem container_error_result_format (env : Env) (image command : String) (ud : FsPath)
    (exitStatus : Int) (stdoutText : String) (stderr : String)
    (hc : env.clientExc = none)
    (h : env.run image command = DockerOutcome.containerError exitStatus stdoutText (some stderr)) :
    run_docker_container env image command ud =
      (Except.ok (pyStrip stderr,
        some ("Command '" ++ command ++ "' in image '" ++ image ++
          "' returned non-zero exit status " ++ toString exitStatus ++ ": " ++ pyStrip stderr)),
       [Event.containerCreate image command ud]) := by
  unfold run_docker_container
  rw [hc, h]
  dsimp only
  have hne : ("Command '" ++ command ++ "' in image '" ++ image ++
      "' returned non-zero exit status " ++ toString exitStatus ++ ": " ++ pyStrip stderr) ≠ "" :=
    append_ne_empty_left _ _ (append_ne_empty_right _ _ (by decide))
  simp only [strOrNone, beq_eq_false_iff_ne.mpr hne, Bool.false_eq_true, if_false]

/-- Witness for the amended C6 at a concrete failing run. -/
theorem container_error_result_format_witness :
    envBoom.clientExc = none ∧
    envBoom.run "python:3.9" "python /usr/src/app/code.py" =
      DockerOutcome.containerError 1 "partial stdout" (some "boom\n") ∧
    run_docker_container envBoom "python:3.9" "python /usr/src/app/code.py" ["/d"] =
      (Except.ok ("boom",
        some "Command 'python /usr/src/app/code.py' in image 'python:3.9' returned non-zero exit status 1: boom"),
       [Event.containerCreate "python:3.9" "python /usr/src/app/code.py" ["/d"]]) :=
  ⟨rfl, rfl,
    (container_error_result_format envBoom "python:3.9" "python /usr/src/app/code.py" ["/d"]
      1 "partial stdout" "boom\n" rfl rfl).trans (by decide)⟩

theorem writtenFiles_exec_python_cases (env : Env) (code : String) (ud : FsPath) :
    writtenFiles (execute_python_code env code ud).snd = [] ∨
    writtenFiles (execute_python_code env code ud).snd = [pathJoin ud "code.py"] := by
  unfold execute_python_code
  exact writtenFiles_simple env _ code _ _ ud

/-- C8 counterexample: two concurrent python executions by the same requester
with different code and different uuid tokens both write to the same staged
path `<user_dir>/code.py`; the staged file is shared, contradicting "no two
concurrent calls ever write to the same staged file path". -/
theorem concurrent_python_runs_share_staged_path :
    Event.writeFile ["/app", "storage", "alice_u1", "projects", "code.py"] "print(1)" ∈
      (execute_user_code envOK "a" { code := "print(1)", language := "python" } alice).snd ∧
    Event.writeFile ["/app", "storage", "alice_u1", "projects", "code.py"] "print(2)" ∈
      (execute_user_code envOK "b" { code := "print(2)", language := "python" } alice).snd ∧
    writtenFiles
        (execute_user_code envOK "a" { code := "print(1)", language := "python" } alice).snd =
      writtenFiles
        (execute_user_code envOK "b" { code := "print(2)", language := "python" } alice).snd := by
  decide

/-- C8 (amended): for the languages c, cpp, js, cs, ruby and go, two calls
with distinct uuid tokens stage their sources into distinct files (their
written-path sets are disjoint); python, however, always stages into the
fixed per-user `code.py`: its written-path set is the same for any two calls
by the same requester, whatever the tokens and code. -/
theorem staged_paths_disjoint_for_distinct_tokens (env : Env) (u : User)
    (t1 t2 c1 c2 : String) (lang : String)
    (hlang : lang ∈ (["c", "cpp", "js", "cs", "ruby", "go"] : List String))
    (ht : t1 ≠ t2) :
    (∀ p, p ∈ writtenFiles (execute_code env t1 c1 lang u).snd →
        p ∉ writtenFiles (execute_code env t2 c2 lang u).snd) ∧
    writtenFiles (execute_code env t1 c1 "python" u).snd =
      writtenFiles (execute_code env t2 c2 "python" u).snd := by
  constructor
  · rcases hm : env.mkdirExc with _ | m
    · fin_cases hlang
      · rw [execute_code_c_eq env t1 c1 u hm, execute_code_c_eq env t2 c2 u hm]
        simp only [writtenFiles_cons_mkdir, writtenFiles_cons_dispatched]
        exact disjoint_of_cases (writtenFiles_exec_c env t1 c1 (user_dir env.cwd u))
          (writtenFiles_exec_c env t2 c2 (user_dir env.cwd u)) (pathJoin_token_ne ".c" ht)
      · rw [execute_code_cpp_eq env t1 c1 u hm, execute_code_cpp_eq env t2 c2 u hm]
        simp only [writtenFiles_cons_mkdir, writtenFiles_cons_dispatched]
        exact disjoint_of_cases (writtenFiles_exec_cpp env t1 c1 (user_dir env.cwd u))
          (writtenFiles_exec_cpp env t2 c2 (user_dir env.cwd u)) (pathJoin_token_ne ".cpp" ht)
      · rw [execute_code_js_eq env t1 c1 u hm, execute_code_js_eq env t2 c2 u hm]
        simp only [writtenFiles_cons_mkdir, writtenFiles_cons_dispatched]
        exact disjoint_of_cases (writtenFiles_exec_js env t1 c1 (user_dir env.cwd u))
          (writtenFiles_exec_js env t2 c2 (user_dir env.cwd u)) (pathJoin_token_ne ".js" ht)
      · rw [execute_code_cs_eq env t1 c1 u hm, execute_code_cs_eq env t2 c2 u hm]
        simp only [writtenFiles_cons_mkdir, writtenFiles_cons_dispatched]
        exact disjoint_of_cases (writtenFiles_exec_cs env t1 c1 (user_dir env.cwd u))
          (writtenFiles_exec_cs env t2 c2 (user_dir env.cwd u)) (pathJoin_token_ne ".cs" ht)
      · rw [execute_code_ruby_eq env t1 c1 u hm, execute_code_ruby_eq env t2 c2 u hm]
        simp only [writtenFiles_cons_mkdir, writtenFiles_cons_dispatched]
        exact disjoint_of_cases (writtenFiles_exec_ruby env t1 c1 (user_dir env.cwd u))
          (writtenFiles_exec_ruby env t2 c2 (user_dir env.cwd u)) (pathJoin_token_ne ".rb" ht)
      · rw [execute_code_go_eq env t1 c1 u hm, execute_code_go_eq env t2 c2 u hm]
        simp only [writtenFiles_cons_mkdir, writtenFiles_cons_dispatched]
        exact disjoint_of_cases (writtenFiles_exec_go env t1 c1 (user_dir env.cwd u))
          (writtenFiles_exec_go env t2 c2 (user_dir env.cwd u)) (pathJoin_token_ne ".go" ht)
    · rw [execute_code_mkdir_fail env t1 c1 lang u m hm,
        execute_code_mkdir_fail env t2 c2 lang u m hm]
      intro p hp
      simp [writtenFiles] at hp
  · rcases hm : env.mkdirExc with _ | m
    · rw [execute_code_python_eq env t1 c1 u hm, execute_code_python_eq env t2 c2 u hm]
      simp only [writtenFiles_cons_mkdir, writtenFiles_cons_dispatched]
      rw [writtenFiles_exec_python env c1 (user_dir env.cwd u),
        writtenFiles_exec_python env c2 (user_dir env.cwd u)]
    · rw [execute_code_mkdir_fail env t1 c1 "python" u m hm,
        execute_code_mkdir_fail env t2 c2 "python" u m hm]

/-- Witness for the amended C8 at language `"c"` with tokens `"a"` and `"b"`. -/
theorem staged_paths_disjoint_for_distinct_tokens_witness :
    (("c" : String) ∈ (["c", "cpp", "js", "cs", "ruby", "go"] : List String)) ∧
    (("a" : String) ≠ "b") ∧
    ((∀ p, p ∈ writtenFiles (execute_code envOK "a" "x" "c" alice).snd →
        p ∉ writtenFiles (execute_code envOK "b" "y" "c" alice).snd) ∧
     writtenFiles (execute_code envOK "a" "x" "python" alice).snd =
       writtenFiles (execute_code envOK "b" "y" "python" alice).snd) :=
  ⟨by decide, by decide,
    staged_paths_disjoint_for_distinct_tokens envOK alice "a" "b" "x" "y" "c"
      (by decide) (by decide)⟩

/-- C9 counterexample: the staging path is built from the requester's
username: user "alice" stages python code at
`[cwd, "storage", "alice_u1", "projects", "code.py"]`, whose directory
component embeds the user-chosen username verbatim, and changing only the
username changes the staged path — user-supplied input directly controls a
staged filesystem path component. -/
theorem username_controls_staged_path :
    writtenFiles (execute_code envOK "t1" "x" "python" alice).snd =
      [["/app", "storage", "alice_u1", "projects", "code.py"]] ∧
    writtenFiles (execute_code envOK "t1" "x" "python"
        { username := "bob", uuid_file_store := "u1" }).snd =
      [["/app", "storage", "bob_u1", "projects", "code.py"]] ∧
    containsSeq "alice".data "alice_u1".data = true := by decide

/-- C9 (amended): every staged file path contains the directory component
`username ++ "_" ++ uuid_file_store`: staging paths are built from the fixed
root plus a component embedding the requester's username verbatim, with a
file name that is fixed (`code.py`) or uuid-token-based — they are not built
only from fixed roots and random tokens. -/
theorem staged_paths_embed_username (env : Env) (tok code lang : String) (u : User)
    (hmem : lang ∈ USING_LANGUAGE) :
    ∀ p ∈ writtenFiles (execute_code env tok code lang u).snd,
      (u.username ++ "_" ++ u.uuid_file_store) ∈ p := by
  intro p hp
  rcases hm : env.mkdirExc with _ | m
  · fin_cases hmem
    · rw [execute_code_python_eq env tok code u hm] at hp
      simp only [writtenFiles_cons_mkdir, writtenFiles_cons_dispatched] at hp
      rcases writtenFiles_exec_python_cases env code (user_dir env.cwd u) with h | h <;>
        rw [h] at hp
      · simp at hp
      · rw [List.mem_singleton] at hp
        subst hp
        simp [pathJoin, user_dir]
    · rw [execute_code_c_eq env tok code u hm] at hp
      simp only [writtenFiles_cons_mkdir, writtenFiles_cons_dispatched] at hp
      rcases writtenFiles_exec_c env tok code (user_dir env.cwd u) with h | h <;> rw [h] at hp
      · simp at hp
      · rw [List.mem_singleton] at hp
        subst hp
        simp [pathJoin, user_dir]
    · rw [execute_code_cpp_eq env tok code u hm] at hp
      simp only [writtenFiles_cons_mkdir, writtenFiles_cons_dispatched] at hp
      rcases writtenFiles_exec_cpp env tok code (user_dir env.cwd u) with h | h <;> rw [h] at hp
      · simp at hp
      · rw [List.mem_singleton] at hp
        subst hp
        simp [pathJoin, user_dir]
    · rw [execute_code_js_eq env tok code u hm] at hp
      simp only [writtenFiles_cons_mkdir, writtenFiles_cons_dispatched] at hp
      rcases writtenFiles_exec_js env tok code (user_dir env.cwd u) with h | h <;> rw [h] at hp
      · simp at hp
      · rw [List.mem_singleton] at hp
        subst hp
        simp [pathJoin, user_dir]
    · rw [execute_code_cs_eq env tok code u hm] at hp
      simp only [writtenFiles_cons_mkdir, writtenFiles_cons_dispatched] at hp
      rcases writtenFiles_exec_cs env tok code (user_dir env.cwd u) with h | h <;> rw [h] at hp
      · simp at hp
      · rw [List.mem_singleton] at hp
        subst hp
        simp [pathJoin, user_dir]
    · rw [execute_code_ruby_eq env tok code u hm] at hp
      simp only [writtenFiles_cons_mkdir, writtenFiles_cons_dispatched] at hp
      rcases writtenFiles_exec_ruby env tok code (user_dir env.cwd u) with h | h <;> rw [h] at hp
      · simp at hp
      · rw [List.mem_singleton] at hp
        subst hp
        simp [pathJoin, user_dir]
    · rw [execute_code_go_eq env tok code u hm] at hp
      simp only [writtenFiles_cons_mkdir, writtenFiles_cons_dispatched] at hp
      rcases writtenFiles_exec_go env tok code (user_dir env.cwd u) with h | h <;> rw [h] at hp
      · simp at hp
      · rw [List.mem_singleton] at hp
        subst hp
        simp [pathJoin, user_dir]
  · rw [execute_code_mkdir_fail env tok code lang u m hm] at hp
    simp [writtenFiles] at hp

/-- Witness for the amended C9: the username-bearing component sits inside
the concrete staged python path of user alice. -/
theorem staged_paths_embed_username_witness :
    (("python" : String) ∈ USING_LANGUAGE) ∧
    (["/app", "storage", "alice_u1", "projects", "code.py"] : FsPath) ∈
      writtenFiles (execute_code envOK "t1" "x" "python" alice).snd ∧
    ("alice" ++ "_" ++ "u1" : String) ∈
      (["/app", "storage", "alice_u1", "projects", "code.py"] : List String) :=
  ⟨by decide, by decide,
    staged_paths_embed_username envOK "t1" "x" "python" alice (by decide)
      ["/app", "storage", "alice_u1", "projects", "code.py"] (by decide)⟩

/-- C10: for every language in the allow-list, once the dispatch chain in
`execute_code` is reached (`os.makedirs` did not raise), the chain selects
exactly one matching per-language executor — the trace carries exactly the
one dispatch marker of that language — and the fallback branch returning
`("", "Unsupported language")` is unreachable. -/
theorem execute_code_dispatches_uniquely (env : Env) (tok code lang : String) (user : User)
    (hmem : lang ∈ USING_LANGUAGE) (hmk : env.mkdirExc = none) :
    dispatches (execute_code env tok code lang user).snd = [lang] ∧
    Event.unsupportedLanguageBranch ∉ (execute_code env tok code lang user).snd := by
  fin_cases hmem
  · constructor
    · rw [execute_code_python_eq env tok code user hmk]
      rw [dispatches_cons_mkdir, dispatches_cons_dispatched,
        dispatches_exec_python env code (user_dir env.cwd user)]
    · rw [execute_code_python_eq env tok code user hmk]
      intro hin
      simp only [List.mem_cons] at hin
      rcases hin with h | h | hin
      · exact Event.noConfusion h
      · exact Event.noConfusion h
      · exact forall_events_exec_python (fun e => e ≠ Event.unsupportedLanguageBranch)
          env code _ (fun p t => by simp) (fun i c m => by simp) _ hin rfl
  · constructor
    · rw [execute_code_c_eq env tok code user hmk]
      rw [dispatches_cons_mkdir, dispatches_cons_dispatched,
        dispatches_exec_c env tok code (user_dir env.cwd user)]
    · rw [execute_code_c_eq env tok code user hmk]
      intro hin
      simp only [List.mem_cons] at hin
      rcases hin with h | h | hin
      · exact Event.noConfusion h
      · exact Event.noConfusion h
      · exact forall_events_exec_c (fun e => e ≠ Event.unsupportedLanguageBranch)
          env tok code _ (fun p t => by simp) (fun i c m => by simp) _ hin rfl
  · constructor
    · rw [execute_code_cpp_eq env tok code user hmk]
      rw [dispatches_cons_mkdir, dispatches_cons_dispatched,
        dispatches_exec_cpp env tok code (user_dir env.cwd user)]
    · rw [execute_code_cpp_eq env tok code user hmk]
      intro hin
      simp only [List.mem_cons] at hin
      rcases hin with h | h | hin
      · exact Event.noConfusion h
      · exact Event.noConfusion h
      · exact forall_events_exec_cpp (fun e => e ≠ Event.unsupportedLanguageBranch)
          env tok code _ (fun p t => by simp) (fun i c m => by simp) _ hin rfl
  · constructor
    · rw [execute_code_js_eq env tok code user hmk]
      rw [dispatches_cons_mkdir, dispatches_cons_dispatched,
        dispatches_exec_js env tok code (user_dir env.cwd user)]
    · rw [execute_code_js_eq env tok code user hmk]
      intro hin
      simp only [List.mem_cons] at hin
      rcases hin with h | h | hin
      · exact Event.noConfusion h
      · exact Event.noConfusion h
      · exact forall_events_exec_js (fun e => e ≠ Event.unsupportedLanguageBranch)
          env tok code _ (fun p t => by simp) (fun i c m => by simp) _ hin rfl
  · constructor
    · rw [execute_code_cs_eq env tok code user hmk]
      rw [dispatches_cons_mkdir, dispatches_cons_dispatched,
        dispatches_exec_cs env tok code (user_dir env.cwd user)]
    · rw [execute_code_cs_eq env tok code user hmk]
      intro hin
      simp only [List.mem_cons] at hin
      rcases hin with h | h | hin
      · exact Event.noConfusion h
      · exact Event.noConfusion h
      · exact forall_events_exec_cs (fun e => e ≠ Event.unsupportedLanguageBranch)
          env tok code _ (fun p => by simp) (fun p t => by simp) (fun i c m => by simp) _ hin rfl
  · constructor
    · rw [execute_code_ruby_eq env tok code user hmk]
      rw [dispatches_cons_mkdir, dispatches_cons_dispatched,
        dispatches_exec_ruby env tok code (user_dir env.cwd user)]
    · rw [execute_code_ruby_eq env tok code user hmk]
      intro hin
      simp only [List.mem_cons] at hin
      rcases hin with h | h | hin
      · exact Event.noConfusion h
      · exact Event.noConfusion h
      · exact forall_events_exec_ruby (fun e => e ≠ Event.unsupportedLanguageBranch)
          env tok code _ (fun p t => by simp) (fun i c m => by simp) _ hin rfl
  · constructor
    · rw [execute_code_go_eq env tok code user hmk]
      rw [dispatches_cons_mkdir, dispatches_cons_dispatched,
        dispatches_exec_go env tok code (user_dir env.cwd user)]
    · rw [execute_code_go_eq env tok code user hmk]
      intro hin
      simp only [List.mem_cons] at hin
      rcases hin with h | h | hin
      · exact Event.noConfusion h
      · exact Event.noConfusion h
      · exact forall_events_exec_go (fun e => e ≠ Event.unsupportedLanguageBranch)
          env tok code _ (fun p t => by simp) (fun i c m => by simp) _ hin rfl

/-- Witness for C10 at the concrete language `"ruby"`. -/
theorem execute_code_dispatches_uniquely_witness :
    (("ruby" : String) ∈ USING_LANGUAGE) ∧ envOK.mkdirExc = none ∧
    (dispatches (execute_code envOK "t1" "x" "ruby" alice).snd = ["ruby"] ∧
     Event.unsupportedLanguageBranch ∉ (execute_code envOK "t1" "x" "ruby" alice).snd) :=
  ⟨by decide, rfl,
    execute_code_dispatches_uniquely envOK "t1" "x" "ruby" alice (by decide) rfl⟩
